import Mathlib

/-!
Verification of the distributed-heartbeat service against its specification.

The service keeps liveness data in a flat key-value store (Redis).  We embed
the store as an association list from string keys to typed values: the source
serializes records to JSON strings, and every operation writes exactly one
kind of record per key, so a typed store is an exact model of the reachable
states.  Asynchronous `Promise.all` fan-outs in the source are sequentialized
in program order; all fanned-out writes within one operation touch pairwise
distinct keys, so the order does not affect the final store.
-/

/-- Model of the instance record (type TInstance of src/endpoints/instances.ts).
The opaque JSON metadata payload is modelled as a string. -/
structure TInstance where
  id : String
  group : String
  createdAt : Int
  updatedAt : Int
  meta : String
deriving DecidableEq, Repr

/-- Model of the group record (type TGroup of src/endpoints/groups.ts). -/
structure TGroup where
  group : String
  createdAt : Int
  lastUpdatedAt : Int
deriving DecidableEq, Repr

/-- A value stored under one key: an instance record, a group record, an
index (list of ids), or a bare numeric timestamp (mutex and last_gc keys). -/
inductive Value where
  | inst : TInstance → Value
  | grp : TGroup → Value
  | idx : List String → Value
  | time : Int → Value
deriving DecidableEq, Repr

/-- The key-value store, as an association list (first binding wins). -/
abbrev Store := List (String × Value)

/-- Read a key (db.get). -/
def Store.get : Store → String → Option Value
  | [], _ => none
  | (k, v) :: rest, key => if k = key then some v else Store.get rest key

/-- Delete a key (db.del). -/
def Store.del : Store → String → Store
  | [], _ => []
  | (k, v) :: rest, key =>
      if k = key then Store.del rest key else (k, v) :: Store.del rest key

/-- Write a key (db.set), overwriting any previous binding. -/
def Store.set (s : Store) (key : String) (v : Value) : Store :=
  (key, v) :: Store.del s key

theorem Store.get_del_self (s : Store) (k : String) : (s.del k).get k = none := by
  induction s with
  | nil => rfl
  | cons a rest ih =>
      obtain ⟨a1, a2⟩ := a
      by_cases h : a1 = k <;> simp [Store.del, Store.get, h, ih]

theorem Store.get_del_ne (s : Store) (k k' : String) (h : k' ≠ k) :
    (s.del k).get k' = s.get k' := by
  induction s with
  | nil => rfl
  | cons a rest ih =>
      obtain ⟨a1, a2⟩ := a
      by_cases h1 : a1 = k
      · subst h1
        simp [Store.del, Store.get, ih, Ne.symm h]
      · by_cases h2 : a1 = k' <;> simp [Store.del, Store.get, h1, h2, ih, h]

theorem Store.get_set_self (s : Store) (k : String) (v : Value) :
    (s.set k v).get k = some v := by
  simp [Store.set, Store.get]

theorem Store.get_set_ne (s : Store) (k k' : String) (v : Value) (h : k' ≠ k) :
    (s.set k v).get k' = s.get k' := by
  simp [Store.set, Store.get, Ne.symm h, Store.get_del_ne s k k' h]

/-! ### Key-space mapper (pure key derivation functions from the source) -/

/-- Key of the instance `id` in the group `gid` (src/endpoints/instances.ts). -/
def getInstanceKey (gid id : String) : String := "instance:" ++ gid ++ ":" ++ id

/-- Key of the group record (src/endpoints/groups.ts). -/
def getGroupKey (gid : String) : String := "group:" ++ gid

/-- Key of the instance index of the group `gid` (src/endpoints/groups.ts). -/
def getGroupIndexKey (gid : String) : String := "group:" ++ gid ++ ":instances"

/-- Key of the global list of group ids (src/endpoints/groups.ts). -/
def listIndexKey : String := "groups"

/-- Key of the advisory mutex guarding the resource named `name` (src/db.ts). -/
def mutexKey (name : String) : String := "mutex:" ++ name

/-! ### String-key disjointness lemmas -/

theorem str_append_data (s t : String) : (s ++ t).data = s.data ++ t.data := by
  cases s with
  | mk a => cases t with
    | mk b => rfl

theorem str_ne_of_head_ne (s t : String) (h : s.data.head? ≠ t.data.head?) : s ≠ t :=
  fun he => h (by rw [he])

theorem head_instanceKey (g i : String) : (getInstanceKey g i).data.head? = some 'i' := by
  show ((("instance:" ++ g) ++ ":") ++ i).data.head? = some 'i'
  rw [str_append_data, str_append_data, str_append_data]
  rfl

theorem head_groupKey (g : String) : (getGroupKey g).data.head? = some 'g' := by
  show ("group:" ++ g).data.head? = some 'g'
  rw [str_append_data]
  rfl

theorem head_groupIndexKey (g : String) :
    (getGroupIndexKey g).data.head? = some 'g' := by
  show (("group:" ++ g) ++ ":instances").data.head? = some 'g'
  rw [str_append_data, str_append_data]
  rfl

theorem head_mutexKey (x : String) : (mutexKey x).data.head? = some 'm' := by
  show ("mutex:" ++ x).data.head? = some 'm'
  rw [str_append_data]
  rfl

theorem head_listIndexKey : (listIndexKey).data.head? = some 'g' := rfl

theorem mutexKey_ne_groupKey (x g : String) : mutexKey x ≠ getGroupKey g :=
  str_ne_of_head_ne _ _ (by rw [head_mutexKey, head_groupKey]; decide)

theorem mutexKey_ne_groupIndexKey (x g : String) : mutexKey x ≠ getGroupIndexKey g :=
  str_ne_of_head_ne _ _ (by rw [head_mutexKey, head_groupIndexKey]; decide)

theorem mutexKey_ne_listIndexKey (x : String) : mutexKey x ≠ listIndexKey :=
  str_ne_of_head_ne _ _ (by rw [head_mutexKey, head_listIndexKey]; decide)

theorem mutexKey_ne_instanceKey (x g i : String) : mutexKey x ≠ getInstanceKey g i :=
  str_ne_of_head_ne _ _ (by rw [head_mutexKey, head_instanceKey]; decide)

theorem instanceKey_ne_groupKey (g i g' : String) :
    getInstanceKey g i ≠ getGroupKey g' :=
  str_ne_of_head_ne _ _ (by rw [head_instanceKey, head_groupKey]; decide)

theorem instanceKey_ne_groupIndexKey (g i g' : String) :
    getInstanceKey g i ≠ getGroupIndexKey g' :=
  str_ne_of_head_ne _ _ (by rw [head_instanceKey, head_groupIndexKey]; decide)

theorem instanceKey_ne_listIndexKey (g i : String) :
    getInstanceKey g i ≠ listIndexKey :=
  str_ne_of_head_ne _ _ (by rw [head_instanceKey, head_listIndexKey]; decide)

theorem groupKey_ne_listIndexKey (g : String) : getGroupKey g ≠ listIndexKey := by
  intro h
  have h2 : ('g' :: 'r' :: 'o' :: 'u' :: 'p' :: ':' :: g.data : List Char)
      = ['g', 'r', 'o', 'u', 'p', 's'] := by
    have h3 : (getGroupKey g).data = (listIndexKey).data := congrArg String.data h
    rw [show (getGroupKey g).data = ("group:").data ++ g.data from
          str_append_data ("group:") g] at h3
    exact h3
  injection h2 with e1 h2
  injection h2 with e2 h2
  injection h2 with e3 h2
  injection h2 with e4 h2
  injection h2 with e5 h2
  injection h2 with e6 h2
  exact absurd e6 (by decide)

theorem groupIndexKey_ne_listIndexKey (g : String) :
    getGroupIndexKey g ≠ listIndexKey := by
  intro h
  have h2 : ('g' :: 'r' :: 'o' :: 'u' :: 'p' :: ':' :: (g.data ++ (":instances").data)
      : List Char) = ['g', 'r', 'o', 'u', 'p', 's'] := by
    have h3 : (getGroupIndexKey g).data = (listIndexKey).data := congrArg String.data h
    rw [show (getGroupIndexKey g).data = ("group:" ++ g).data ++ (":instances").data from
          str_append_data ("group:" ++ g) (":instances"),
        str_append_data ("group:") g] at h3
    exact h3
  injection h2 with e1 h2
  injection h2 with e2 h2
  injection h2 with e3 h2
  injection h2 with e4 h2
  injection h2 with e5 h2
  injection h2 with e6 h2
  exact absurd e6 (by decide)

theorem groupKey_ne_groupIndexKey (g : String) :
    getGroupKey g ≠ getGroupIndexKey g := by
  intro h
  have h2 : (getGroupKey g).data.length = (getGroupIndexKey g).data.length := by rw [h]
  have h4 : ((":instances") : String).data.length = 10 := rfl
  rw [show (getGroupKey g).data = ("group:").data ++ g.data from
        str_append_data ("group:") g,
      show (getGroupIndexKey g).data = ("group:").data ++ g.data ++ (":instances").data from
        by rw [show getGroupIndexKey g = ("group:" ++ g) ++ ":instances" from rfl,
               str_append_data ("group:" ++ g) (":instances"),
               str_append_data ("group:") g]] at h2
  simp only [List.length_append, List.length_cons, List.length_nil] at h2
  omega

/-! ### Group index manager (src/endpoints/groups.ts) -/

/-- Read the global list of group ids (getList): the value of key `groups`,
an absent list parsed as the empty list. -/
def getList (s : Store) : List String :=
  match Store.get s listIndexKey with
  | some (.idx gids) => gids
  | _ => []

/-- Truthiness of `xs?.length` in the source: 0 for a null or empty list. -/
def optLen (xs : Option (List String)) : Nat := (xs.getD []).length

/-- The addition step of alterListIndex (`if (add?.length) gids.push(...add)`). -/
def applyAdd (gids : List String) (add : Option (List String)) : List String :=
  if optLen add ≠ 0 then gids ++ add.getD [] else gids

/-- The removal step of alterListIndex
(`if (remove?.length) gids = gids.filter((gid) => !remove.includes(gid))`). -/
def applyRemove (gids : List String) (remove : Option (List String)) : List String :=
  if optLen remove ≠ 0 then
    gids.filter (fun gid => !((remove.getD []).contains gid))
  else gids

/-- alterListIndex (src/endpoints/groups.ts, lines 209-238): reads the current
global list; if nonempty, applies additions then removals and writes it back;
if empty, copies `add` (writing it twice, as the source does) or writes back
the empty list. -/
def alterListIndex (s : Store) (add remove : Option (List String)) : Store :=
  if (getList s).length ≠ 0 then
    Store.set s listIndexKey (.idx (applyRemove (applyAdd (getList s) add) remove))
  else if optLen add ≠ 0 then
    Store.set (Store.set s listIndexKey (.idx (add.getD []))) listIndexKey
      (.idx (add.getD []))
  else
    Store.set s listIndexKey (.idx (getList s))

/-- addGroup (src/endpoints/groups.ts, lines 143-170): acquires the global-list
lock, writes the group record and a seed index, appends the gid to the global
list, and releases the lock. -/
def addGroup (s : Store) (gid id : String) (now : Int) : Store :=
  let s1 := Store.set s (mutexKey listIndexKey) (.time now)
  let s2 := Store.set s1 (getGroupKey gid) (.grp ⟨gid, now, now⟩)
  let s3 := Store.set s2 (getGroupIndexKey gid) (.idx [id])
  let s4 := alterListIndex s3 (some [gid]) none
  Store.del s4 (mutexKey listIndexKey)

/-- removeGroup (src/endpoints/groups.ts, lines 177-198): acquires the
global-list lock, deletes the group record and its index, removes the gid from
the global list, and releases the lock. -/
def removeGroup (s : Store) (gid : String) (now : Int) : Store :=
  let s1 := Store.set s (mutexKey listIndexKey) (.time now)
  let s2 := Store.del s1 (getGroupKey gid)
  let s3 := Store.del s2 (getGroupIndexKey gid)
  let s4 := alterListIndex s3 none (some [gid])
  Store.del s4 (mutexKey listIndexKey)

/-! ### Instance manager (src/endpoints/instances.ts) -/

/-- addInstance (lines 110-147): writes a fresh instance record and appends the
id to the group index (creating the index when absent). -/
def addInstance (s : Store) (gid id payload : String) (now : Int) : Store :=
  let ids := match Store.get s (getGroupIndexKey gid) with
    | some (.idx ids) => ids ++ [id]
    | _ => [id]
  let s1 := Store.set s (getInstanceKey gid id) (.inst ⟨id, gid, now, now, payload⟩)
  Store.set s1 (getGroupIndexKey gid) (.idx ids)

/-- removeInstance (lines 166-189): deletes the instance record; reads the group
index and, when pruning the id leaves it empty, removes the whole group.  The
source never writes the pruned index back in the nonempty case (the filtered
list only lives in a local variable). -/
def removeInstance (s : Store) (gid id : String) (now : Int) : Store :=
  let doRemoveGroup := match Store.get s (getGroupIndexKey gid) with
    | some (.idx ids) => (ids.filter (fun item => item != id)).isEmpty
    | _ => false
  let s1 := Store.del s (getInstanceKey gid id)
  if doRemoveGroup then removeGroup s1 gid now else s1

/-- The POST /:group/:id handler (lines 32-77): acquires the group lock, reads
the group record and the instance record, then creates the instance (or bumps
only its updatedAt), creates the group (or bumps only its lastUpdatedAt), and
releases the lock.  The two parse branches on values of a foreign kind are
unreachable: no operation writes a non-instance value under an instance key or
a non-group value under a group key. -/
def postInstance (s : Store) (gid id payload : String) (now : Int) : Store :=
  let s1 := Store.set s (mutexKey (getGroupIndexKey gid)) (.time now)
  let groupV := Store.get s1 (getGroupKey gid)
  let instV := Store.get s1 (getInstanceKey gid id)
  let s2 := match instV with
    | none => addInstance s1 gid id payload now
    | some (.inst inst) =>
        Store.set s1 (getInstanceKey gid id) (.inst { inst with updatedAt := now })
    | some _ => s1
  let s3 := match groupV with
    | none => addGroup s2 gid id now
    | some (.grp group) =>
        Store.set s2 (getGroupKey gid) (.grp { group with lastUpdatedAt := now })
    | some _ => s2
  Store.del s3 (mutexKey (getGroupIndexKey gid))

/-- The DELETE /:group/:id handler (lines 80-92): 404 when the group record
does not exist, otherwise removeInstance and 204. -/
def deleteInstance (s : Store) (gid id : String) (now : Int) : Nat × Store :=
  if (Store.get s (getGroupKey gid)).isSome then (204, removeInstance s gid id now)
  else (404, s)

/-- The GET /:group handler (src/endpoints/groups.ts, lines 105-126), with the
GC gate closed: 404 (modelled as none) when the group index is absent,
otherwise the list of raw instance-record reads. -/
def getGroupEndpoint (s : Store) (gid : String) : Option (List (Option Value)) :=
  match Store.get s (getGroupIndexKey gid) with
  | none => none
  | some v =>
      some ((match v with | .idx ids => ids | _ => []).map
        (fun id => Store.get s (getInstanceKey gid id)))

/-! ### Garbage collector (src/endpoints/groups.ts, disposeExpired) -/

/-- The liveness test of the sweep (line 285):
`!instance || instance.updatedAt + config.instanceTimeout > now` keeps the id.
An absent record (parsed as null) therefore counts as alive. -/
def gcKeepAlive (inst : Option TInstance) (instanceTimeout now : Int) : Bool :=
  match inst with
  | none => true
  | some i => decide (i.updatedAt + instanceTimeout > now)

/-- Parse an instance-record read (`JSON.parse((await db.get(key)) || "null")`). -/
def parseInst : Option Value → Option TInstance
  | some (.inst i) => some i
  | _ => none

/-- Parse an index read (`JSON.parse((await db.get(indexKey)) || "[]")`). -/
def parseIds : Option Value → List String
  | some (.idx ids) => ids
  | _ => []

/-- The per-group body of the sweep (lines 273-306): acquire the group lock,
read the index, delete each expired instance record while filtering it out of
the in-memory index; return the updated store and whether the group was marked
for removal (empty pruned index); otherwise the pruned index is written back. -/
def sweepGroup (s : Store) (gid : String) (instanceTimeout now : Int) : Store × Bool :=
  let s1 := Store.set s (mutexKey (getGroupIndexKey gid)) (.time now)
  let ids := parseIds (Store.get s1 (getGroupIndexKey gid))
  let r := ids.foldl
    (fun (acc : Store × List String) id =>
      let inst := parseInst (Store.get acc.1 (getInstanceKey gid id))
      if gcKeepAlive inst instanceTimeout now then acc
      else (Store.del acc.1 (getInstanceKey gid id),
            acc.2.filter (fun item => item != id)))
    (s1, ids)
  if r.2.isEmpty then (r.1, true)
  else (Store.set r.1 (getGroupIndexKey gid) (.idx r.2), false)

/-- disposeExpired (lines 249-332) with the shouldGC gate open: announce the
sweep start, acquire the global-list lock, sweep every listed group, delete the
groups marked for removal and prune them from the global list, announce the
sweep end, and release all the locks. -/
def disposeExpired (s : Store) (instanceTimeout now : Int) : Store :=
  let s1 := Store.set s ("last_gc") (.time now)
  let s2 := Store.set s1 (mutexKey listIndexKey) (.time now)
  let gids := getList s2
  let r := gids.foldl
    (fun (acc : Store × List String) gid =>
      let sg := sweepGroup acc.1 gid instanceTimeout now
      (sg.1, if sg.2 then acc.2 ++ [gid] else acc.2))
    (s2, [])
  let s3 :=
    if !r.2.isEmpty then
      let sa := r.2.foldl (fun st gid => Store.del st (getGroupKey gid)) r.1
      let sb := r.2.foldl (fun st gid => Store.del st (getGroupIndexKey gid)) sa
      alterListIndex sb none (some r.2)
    else r.1
  let s4 := Store.set s3 ("last_gc") (.time now)
  let s5 := Store.del s4 (mutexKey listIndexKey)
  gids.foldl (fun st gid => Store.del st (mutexKey (getGroupIndexKey gid))) s5

/-! ### Mutex primitive (src/db.ts, aquireLock) -/

/-- The exit test of one poll iteration (lines 48-58): the loop breaks when the
mutex key is absent or its stored timestamp has timed out
(`start + config.mutexTimeout < Date.now()`). -/
def lockFree (mutex : Option Int) (mutexTimeout now : Int) : Bool :=
  match mutex with
  | none => true
  | some start => decide (start + mutexTimeout < now)

/-- One poll iteration's observations: the value read from the mutex key and
the Date.now() of that iteration. -/
structure PollObs where
  mutex : Option Int
  now : Int
deriving DecidableEq, Repr

/-- The sleep of a busy iteration (`await sleep(config.mutexTimeout / 25)`),
as an exact rational duration. -/
def mutexSleep (mutexTimeout : Int) : ℚ := (mutexTimeout : ℚ) / 25

/-- aquireLock (src/db.ts, lines 44-66) run against a trace of per-iteration
observations: on a busy observation it sleeps `mutexTimeout / 25` and retries;
on a free observation it claims the mutex by writing the current timestamp.
Returns the list of sleeps performed and the resulting store, or none when the
trace ends while the loop is still polling. -/
def aquireLock (name : String) (mutexTimeout claimNow : Int) (s : Store) :
    List PollObs → Option (List ℚ × Store)
  | [] => none
  | o :: rest =>
    if lockFree o.mutex mutexTimeout o.now then
      some ([], Store.set s (mutexKey name) (.time claimNow))
    else
      (aquireLock name mutexTimeout claimNow s rest).map
        (fun r => (mutexSleep mutexTimeout :: r.1, r.2))

/-- releaseLock (src/db.ts, lines 71-74): deletes the mutex key. -/
def releaseLock (s : Store) (name : String) : Store :=
  Store.del s (mutexKey name)

/-! ### Helper lemmas about the list-index alteration -/

theorem getList_set_listIndexKey (s : Store) (l : List String) :
    getList (Store.set s listIndexKey (.idx l)) = l := by
  simp [getList, Store.get_set_self]

theorem alter_get_ne (s : Store) (add remove : Option (List String)) (k : String)
    (hk : k ≠ listIndexKey) :
    Store.get (alterListIndex s add remove) k = Store.get s k := by
  unfold alterListIndex
  split
  · exact Store.get_set_ne _ _ _ _ hk
  · split
    · rw [Store.get_set_ne _ _ _ _ hk, Store.get_set_ne _ _ _ _ hk]
    · exact Store.get_set_ne _ _ _ _ hk

theorem getList_alter (s : Store) (add remove : Option (List String)) :
    getList (alterListIndex s add remove) =
      if getList s ≠ [] then
        ((getList s) ++ add.getD []).filter
          (fun gid => !((remove.getD []).contains gid))
      else add.getD [] := by
  unfold alterListIndex
  by_cases h1 : (getList s).length ≠ 0
  · have hne : getList s ≠ [] := by
      intro he
      rw [he] at h1
      exact h1 rfl
    rw [if_pos h1, if_pos hne, getList_set_listIndexKey]
    unfold applyRemove applyAdd
    by_cases ha : optLen add ≠ 0 <;> by_cases hr : optLen remove ≠ 0
    · rw [if_pos hr, if_pos ha]
    · have hrem : remove.getD [] = [] := by
        simpa [optLen] using hr
      rw [if_neg hr, if_pos ha, hrem]
      simp
    · have hadd : add.getD [] = [] := by
        simpa [optLen] using ha
      rw [if_pos hr, if_neg ha, hadd]
      simp
    · have hadd : add.getD [] = [] := by
        simpa [optLen] using ha
      have hrem : remove.getD [] = [] := by
        simpa [optLen] using hr
      rw [if_neg hr, if_neg ha, hadd, hrem]
      simp
  · have he : getList s = [] := by
      simpa using h1
    rw [if_neg h1]
    by_cases ha : optLen add ≠ 0
    · rw [if_pos ha, getList_set_listIndexKey, if_neg (by simp [he])]
    · have hadd : add.getD [] = [] := by
        simpa [optLen] using ha
      rw [if_neg ha, getList_set_listIndexKey, if_neg (by simp [he]), hadd, he]

/-! ### Claim C10: key-space aliasing -/

/-- Claim C10: the key-space mapping is not injective across entities.  With a
colon inside an id, the distinct pairs ("a", "b:c") and ("a:b", "c") share one
instance key, and the group record key of the group id "g:instances" equals the
instance-index key of the distinct group id "g". -/
theorem key_space_aliasing :
    getInstanceKey "a" "b:c" = getInstanceKey "a:b" "c"
    ∧ (("a", "b:c") : String × String) ≠ ("a:b", "c")
    ∧ getGroupKey "g:instances" = getGroupIndexKey "g"
    ∧ ("g:instances" : String) ≠ "g" := by
  refine ⟨rfl, by decide, rfl, by decide⟩

/-! ### Claim C1: removeInstance does not persist the pruned index -/

/-- A store holding group "g" with index ["a", "b"] and both instance records. -/
def sC1 : Store :=
  [(getGroupKey "g", .grp ⟨"g", 0, 0⟩),
   (getGroupIndexKey "g", .idx ["a", "b"]),
   (getInstanceKey "g" "a", .inst ⟨"a", "g", 0, 0, "p"⟩),
   (getInstanceKey "g" "b", .inst ⟨"b", "g", 0, 0, "p"⟩),
   (listIndexKey, .idx ["g"])]

/-- Claim C1 (code bug): on a two-element index, removeInstance("g", "a")
deletes the instance record but leaves the stored index unchanged at
["a", "b"] — the pruned index ["b"] is never written back, although the
function's own doc comment says the group index is altered. -/
theorem removeInstance_keeps_stale_index :
    Store.get (removeInstance sC1 "g" "a" 5) (getGroupIndexKey "g")
      = some (.idx ["a", "b"])
    ∧ Store.get (removeInstance sC1 "g" "a" 5) (getInstanceKey "g" "a") = none := by
  exact ⟨rfl, rfl⟩

/-! ### Claim C2: alterListIndex and removal-wins -/

/-- Claim C2 counterexample: starting from an absent global list, with
add = ["a"] and remove = ["a"], the id "a" appears in both lists yet is present
in the written result — removal does not win on the empty-list path. -/
theorem alter_empty_list_removal_loses :
    getList (alterListIndex [] (some ["a"]) (some ["a"])) = ["a"]
    ∧ "a" ∈ getList (alterListIndex [] (some ["a"]) (some ["a"])) := by
  exact ⟨rfl, by decide⟩

/-- Claim C2 as amended: when the current global list is nonempty,
alterListIndex writes back the current list with additions applied first and
removals applied after (removal wins there); but when the current list is
absent or empty, it writes back exactly the additions, without applying the
removals. -/
theorem alter_writes_additions_then_removals (s : Store)
    (add remove : Option (List String)) :
    getList (alterListIndex s add remove) =
      if getList s ≠ [] then
        ((getList s) ++ add.getD []).filter
          (fun gid => !((remove.getD []).contains gid))
      else add.getD [] :=
  getList_alter s add remove

/-! ### Claim C3: the GC sweep and absent instance records -/

/-- A store holding group "g" whose index lists instance "a", with no instance
record for "a". -/
def sC3 : Store :=
  [(listIndexKey, .idx ["g"]),
   (getGroupIndexKey "g", .idx ["a"]),
   (getGroupKey "g", .grp ⟨"g", 0, 0⟩)]

/-- Claim C3 counterexample: a sweep over a group whose only listed id has no
instance record keeps the id — the index is written back still containing "a"
and the group survives, while the claim says the id is dropped from the
in-memory index (which would have marked the group for removal). -/
theorem sweep_keeps_id_with_absent_record :
    Store.get (disposeExpired sC3 100 1000) (getGroupIndexKey "g")
      = some (.idx ["a"])
    ∧ Store.get (disposeExpired sC3 100 1000) (getGroupKey "g")
      = some (.grp ⟨"g", 0, 0⟩) := by
  exact ⟨rfl, rfl⟩

/-- Claim C3 as amended: during a GC sweep, an id listed in a group's index
whose instance record is absent from the store is kept in the in-memory index
(treated as alive) and written back, and does not contribute to marking the
group for removal; only ids whose record is present and expired are dropped. -/
theorem sweepGroup_keeps_absent (s : Store) (g id : String) (t now : Int)
    (hidx : Store.get s (getGroupIndexKey g) = some (.idx [id]))
    (habs : Store.get s (getInstanceKey g id) = none) :
    Store.get (sweepGroup s g t now).1 (getGroupIndexKey g) = some (.idx [id])
    ∧ (sweepGroup s g t now).2 = false := by
  have hmx : getGroupIndexKey g ≠ mutexKey (getGroupIndexKey g) :=
    (mutexKey_ne_groupIndexKey _ _).symm
  have hik : getInstanceKey g id ≠ mutexKey (getGroupIndexKey g) :=
    (mutexKey_ne_instanceKey _ _ _).symm
  simp only [sweepGroup, Store.get_set_ne _ _ _ _ hmx, Store.get_set_ne _ _ _ _ hik,
    hidx, habs, parseIds, List.foldl_cons, List.foldl_nil, parseInst, gcKeepAlive,
    if_true, List.isEmpty_cons, if_false, Bool.false_eq_true, ite_false]
  exact ⟨Store.get_set_self _ _ _, trivial⟩

/-- Claim C3 amendment witness at a concrete input. -/
theorem sweepGroup_keeps_absent_witness :
    Store.get (sweepGroup sC3 "g" 100 1000).1 (getGroupIndexKey "g")
      = some (.idx ["a"])
    ∧ (sweepGroup sC3 "g" 100 1000).2 = false :=
  sweepGroup_keeps_absent sC3 "g" "a" 100 1000 rfl rfl

/-! ### Claim C5: duplicate ids in a group index are reachable -/

/-- A store reached from the empty store by the public operations: upsert
("g", "a"), upsert ("g", "b"), DELETE ("g", "a"), upsert ("g", "a"). -/
def sDup : Store :=
  postInstance
    ((deleteInstance (postInstance (postInstance [] "g" "a" "p" 1) "g" "b" "p" 2)
        "g" "a" 3).2)
    "g" "a" "p" 4

/-- Claim C5 (code bug): the no-duplicates invariant is violated on a state
reachable from the empty store by public operations alone.  Because
removeInstance leaves the removed id in the stored index, a later upsert of the
same id appends it a second time: the index of group "g" ends as
["a", "b", "a"]. -/
theorem index_duplicate_reachable :
    Store.get sDup (getGroupIndexKey "g") = some (.idx ["a", "b", "a"])
    ∧ ¬ (["a", "b", "a"] : List String).Nodup := by
  exact ⟨rfl, by decide⟩

/-! ### Claim C7: inclusive expiry boundary of the GC sweep -/

/-- Claim C7: the expiry test of the sweep is an inclusive boundary.  For a
group whose index lists exactly the present instance record, a sweep whose
"now" equals updatedAt + instanceTimeout deletes the record, and the record
survives the sweep exactly when updatedAt + instanceTimeout is strictly
greater than now. -/
theorem gc_expiry_boundary (s : Store) (g : String) (i : TInstance) (t now : Int)
    (hidx : Store.get s (getGroupIndexKey g) = some (.idx [i.id]))
    (hrec : Store.get s (getInstanceKey g i.id) = some (.inst i)) :
    (i.updatedAt + t = now →
      Store.get (sweepGroup s g t now).1 (getInstanceKey g i.id) = none)
    ∧ (Store.get (sweepGroup s g t now).1 (getInstanceKey g i.id) = some (.inst i)
        ↔ i.updatedAt + t > now) := by
  have hmx : getGroupIndexKey g ≠ mutexKey (getGroupIndexKey g) :=
    (mutexKey_ne_groupIndexKey _ _).symm
  have hik : getInstanceKey g i.id ≠ mutexKey (getGroupIndexKey g) :=
    (mutexKey_ne_instanceKey _ _ _).symm
  have hig : getInstanceKey g i.id ≠ getGroupIndexKey g :=
    instanceKey_ne_groupIndexKey _ _ _
  by_cases hc : i.updatedAt + t > now
  · simp only [sweepGroup, Store.get_set_ne _ _ _ _ hmx, Store.get_set_ne _ _ _ _ hik,
      hidx, hrec, parseIds, List.foldl_cons, List.foldl_nil, parseInst, gcKeepAlive,
      decide_eq_true_eq, if_pos hc, List.isEmpty_cons, Bool.false_eq_true, ite_false]
    constructor
    · intro he
      omega
    · rw [Store.get_set_ne _ _ _ _ hig, Store.get_set_ne _ _ _ _ hik, hrec]
      simp [hc]
  · simp only [sweepGroup, Store.get_set_ne _ _ _ _ hmx, Store.get_set_ne _ _ _ _ hik,
      hidx, hrec, parseIds, List.foldl_cons, List.foldl_nil, parseInst, gcKeepAlive,
      decide_eq_true_eq, if_neg hc]
    have hfilter : ([i.id].filter (fun item => item != i.id)) = [] := by
      simp
    rw [hfilter]
    simp only [List.isEmpty_nil, if_true]
    constructor
    · intro _
      exact Store.get_del_self _ _
    · rw [Store.get_del_self _ _]
      simp [hc]

/-- Claim C7 witness: with updatedAt = 10, timeout = 5 and now = 15 the record
is deleted at the exact boundary. -/
theorem gc_expiry_boundary_witness :
    (((10 : Int) + 5 = 15) →
      Store.get (sweepGroup
        [(getGroupIndexKey "g", .idx ["a"]),
         (getInstanceKey "g" "a", .inst ⟨"a", "g", 0, 10, "p"⟩)] "g" 5 15).1
        (getInstanceKey "g" "a") = none)
    ∧ (Store.get (sweepGroup
        [(getGroupIndexKey "g", .idx ["a"]),
         (getInstanceKey "g" "a", .inst ⟨"a", "g", 0, 10, "p"⟩)] "g" 5 15).1
        (getInstanceKey "g" "a") = some (.inst ⟨"a", "g", 0, 10, "p"⟩)
        ↔ (10 : Int) + 5 > 15) :=
  gc_expiry_boundary
    [(getGroupIndexKey "g", .idx ["a"]),
     (getInstanceKey "g" "a", .inst ⟨"a", "g", 0, 10, "p"⟩)]
    "g" ⟨"a", "g", 0, 10, "p"⟩ 5 15 rfl rfl

/-! ### Claim C4: the mutex acquisition loop -/

/-- The claim-side description of an observation on which acquisition may
return: the mutex key absent, or holding a timestamp whose age exceeds the
configured mutexTimeout. -/
def lockObservedFree (o : PollObs) (mutexTimeout : Int) : Prop :=
  o.mutex = none ∨ ∃ start, o.mutex = some start ∧ o.now - start > mutexTimeout

theorem lockFree_iff (m : Option Int) (t now : Int) :
    lockFree m t now = true
      ↔ (m = none ∨ ∃ start, m = some start ∧ now - start > t) := by
  cases m with
  | none => simp [lockFree]
  | some start =>
      simp only [lockFree, decide_eq_true_eq, Option.some.injEq]
      constructor
      · intro hlt
        exact Or.inr ⟨start, rfl, by omega⟩
      · rintro (h | ⟨st, hst, hgt⟩)
        · exact absurd h (by simp)
        · cases hst
          omega

/-- Claim C4: whenever aquireLock returns, it returned at an iteration that
observed the mutex key absent or aged past mutexTimeout, every earlier
iteration observed neither and slept mutexTimeout / 25, and the returned store
holds the claiming write of the current timestamp under mutex:name. -/
theorem aquireLock_spec (name : String) (mutexTimeout claimNow : Int) (s : Store)
    (obs : List PollObs) (sleeps : List ℚ) (sf : Store)
    (h : aquireLock name mutexTimeout claimNow s obs = some (sleeps, sf)) :
    ∃ k o, obs[k]? = some o ∧ lockObservedFree o mutexTimeout
      ∧ (∀ o2 ∈ obs.take k, ¬ lockObservedFree o2 mutexTimeout)
      ∧ sleeps = List.replicate k (mutexSleep mutexTimeout)
      ∧ Store.get sf (mutexKey name) = some (.time claimNow) := by
  induction obs generalizing sleeps with
  | nil => exact absurd h (by simp [aquireLock])
  | cons o rest ih =>
      by_cases hf : lockFree o.mutex mutexTimeout o.now = true
      · simp only [aquireLock, hf, if_true, Option.some.injEq, Prod.mk.injEq] at h
        obtain ⟨h1, h2⟩ := h
        refine ⟨0, o, by simp, (lockFree_iff _ _ _).mp hf, ?_, ?_, ?_⟩
        · intro o2 ho2
          simp at ho2
        · rw [← h1]
          rfl
        · rw [← h2]
          exact Store.get_set_self _ _ _
      · simp only [aquireLock, hf, if_false, Bool.false_eq_true] at h
        rw [Option.map_eq_some'] at h
        obtain ⟨⟨sl, st⟩, hrest, hmap⟩ := h
        simp only [Prod.mk.injEq] at hmap
        obtain ⟨hsl, hst⟩ := hmap
        rw [hst] at hrest
        obtain ⟨k, o2, hk, hfree, hprev, hsleeps, hget⟩ := ih sl hrest
        refine ⟨k + 1, o2, ?_, hfree, ?_, ?_, hget⟩
        · simpa using hk
        · intro o3 ho3
          rw [List.take_succ_cons] at ho3
          rcases List.mem_cons.mp ho3 with h3 | h3
          · subst h3
            intro hlf
            exact hf ((lockFree_iff _ _ _).mpr hlf)
          · exact hprev o3 h3
        · rw [← hsl, hsleeps, List.replicate_succ]

/-- Claim C4 witness: a trace that first observes a live mutex (written at 0,
observed at 50 with timeout 100) and then observes the key absent, with the
claiming write at 70. -/
theorem aquireLock_spec_witness :
    ∃ k o, ([⟨some 0, 50⟩, ⟨none, 60⟩] : List PollObs)[k]? = some o
      ∧ lockObservedFree o 100
      ∧ (∀ o2 ∈ ([⟨some 0, 50⟩, ⟨none, 60⟩] : List PollObs).take k,
          ¬ lockObservedFree o2 100)
      ∧ [mutexSleep 100] = List.replicate k (mutexSleep 100)
      ∧ Store.get (Store.set [] (mutexKey "groups") (.time 70)) (mutexKey "groups")
          = some (.time 70) :=
  aquireLock_spec "groups" 100 70 [] [⟨some 0, 50⟩, ⟨none, 60⟩]
    [mutexSleep 100] (Store.set [] (mutexKey "groups") (.time 70)) rfl

/-! ### Claim C8: a heartbeat only refreshes the timestamps -/

/-- Claim C8: when both the instance record and the owning group record exist,
the POST handler (a pure heartbeat) changes only the instance's updatedAt
(preserving id, group, createdAt and the metadata payload) and only the group's
lastUpdatedAt (preserving its other fields), both in the same handler run. -/
theorem post_heartbeat_frame (s : Store) (gid id payload : String) (now : Int)
    (inst : TInstance) (grp : TGroup)
    (hinst : Store.get s (getInstanceKey gid id) = some (.inst inst))
    (hgrp : Store.get s (getGroupKey gid) = some (.grp grp)) :
    Store.get (postInstance s gid id payload now) (getInstanceKey gid id)
      = some (.inst { inst with updatedAt := now })
    ∧ Store.get (postInstance s gid id payload now) (getGroupKey gid)
      = some (.grp { grp with lastUpdatedAt := now }) := by
  have hkm : getInstanceKey gid id ≠ mutexKey (getGroupIndexKey gid) :=
    (mutexKey_ne_instanceKey _ _ _).symm
  have hgm : getGroupKey gid ≠ mutexKey (getGroupIndexKey gid) :=
    (mutexKey_ne_groupKey _ _).symm
  have hig : getInstanceKey gid id ≠ getGroupKey gid :=
    instanceKey_ne_groupKey _ _ _
  simp only [postInstance, Store.get_set_ne _ _ _ _ hkm, Store.get_set_ne _ _ _ _ hgm,
    hinst, hgrp]
  constructor
  · rw [Store.get_del_ne _ _ _ hkm, Store.get_set_ne _ _ _ _ hig,
        Store.get_set_self]
  · rw [Store.get_del_ne _ _ _ hgm, Store.get_set_self]

/-- A concrete heartbeat store for the C8 witness. -/
def sC8 : Store :=
  [(getInstanceKey "g" "a", .inst ⟨"a", "g", 1, 2, "m"⟩),
   (getGroupKey "g", .grp ⟨"g", 1, 3⟩)]

/-- Claim C8 witness at a concrete store. -/
theorem post_heartbeat_frame_witness :
    Store.get (postInstance sC8 "g" "a" "q" 9) (getInstanceKey "g" "a")
      = some (.inst ⟨"a", "g", 1, 9, "m"⟩)
    ∧ Store.get (postInstance sC8 "g" "a" "q" 9) (getGroupKey "g")
      = some (.grp ⟨"g", 1, 9⟩) :=
  post_heartbeat_frame sC8 "g" "a" "q" 9 ⟨"a", "g", 1, 2, "m"⟩ ⟨"g", 1, 3⟩
    (by decide) (by decide)

/-! ### Claim C9: error handling of the DELETE endpoint -/

/-- Claim C9: the DELETE handler reports not-found exactly when the group
record is absent (leaving the store untouched), and otherwise reports
no-content and performs removeInstance — regardless of whether the named
instance record exists, so the store changes only by the removal writes. -/
theorem delete_not_found_iff_group_absent (s : Store) (gid id : String) (now : Int) :
    ((deleteInstance s gid id now).1 = 404 ↔ Store.get s (getGroupKey gid) = none)
    ∧ (Store.get s (getGroupKey gid) = none → (deleteInstance s gid id now).2 = s)
    ∧ (Store.get s (getGroupKey gid) ≠ none →
        (deleteInstance s gid id now).1 = 204
        ∧ (deleteInstance s gid id now).2 = removeInstance s gid id now) := by
  cases hg : Store.get s (getGroupKey gid) with
  | none => simp [deleteInstance, hg]
  | some v => simp [deleteInstance, hg]

/-- A concrete store for the C9 witness: group "g" exists, instance record
"zz" does not. -/
def sC9 : Store :=
  [(getGroupKey "g", .grp ⟨"g", 0, 0⟩),
   (getGroupIndexKey "g", .idx ["a", "b"])]

/-- Claim C9 witness: with the group present and the named instance record
absent, the endpoint answers 204 and its effect is exactly removeInstance. -/
theorem delete_not_found_iff_group_absent_witness :
    (deleteInstance sC9 "g" "zz" 5).1 = 204
    ∧ (deleteInstance sC9 "g" "zz" 5).2 = removeInstance sC9 "g" "zz" 5 :=
  (delete_not_found_iff_group_absent sC9 "g" "zz" 5).2.2 (by decide)

/-! ### Claim C6: removing the only instance removes the group -/

/-- Claim C6: for a group whose instance-index holds exactly one id, removing
that instance leaves the global group list without the group, deletes the
group record and the instance-index, and makes the GET /:group endpoint
report not-found. -/
theorem remove_last_instance_removes_group (s : Store) (g i : String) (now : Int)
    (h : Store.get s (getGroupIndexKey g) = some (.idx [i])) :
    g ∉ getList (removeInstance s g i now)
    ∧ Store.get (removeInstance s g i now) (getGroupKey g) = none
    ∧ Store.get (removeInstance s g i now) (getGroupIndexKey g) = none
    ∧ getGroupEndpoint (removeInstance s g i now) g = none := by
  have hri : removeInstance s g i now
      = removeGroup (Store.del s (getInstanceKey g i)) g now := by
    simp only [removeInstance, h]
    simp
  rw [hri]
  simp only [removeGroup]
  have hGK : Store.get
      (Store.del (alterListIndex (Store.del (Store.del
          (Store.set (Store.del s (getInstanceKey g i)) (mutexKey listIndexKey)
            (.time now)) (getGroupKey g)) (getGroupIndexKey g)) none (some [g]))
        (mutexKey listIndexKey)) (getGroupKey g) = none := by
    rw [Store.get_del_ne _ _ _ (mutexKey_ne_groupKey _ _).symm,
        alter_get_ne _ _ _ _ (groupKey_ne_listIndexKey g),
        Store.get_del_ne _ _ _ (groupKey_ne_groupIndexKey g),
        Store.get_del_self]
  have hIK : Store.get
      (Store.del (alterListIndex (Store.del (Store.del
          (Store.set (Store.del s (getInstanceKey g i)) (mutexKey listIndexKey)
            (.time now)) (getGroupKey g)) (getGroupIndexKey g)) none (some [g]))
        (mutexKey listIndexKey)) (getGroupIndexKey g) = none := by
    rw [Store.get_del_ne _ _ _ (mutexKey_ne_groupIndexKey _ _).symm,
        alter_get_ne _ _ _ _ (groupIndexKey_ne_listIndexKey g),
        Store.get_del_self]
  refine ⟨?_, hGK, hIK, ?_⟩
  · have hgl : getList (Store.del (alterListIndex (Store.del (Store.del
          (Store.set (Store.del s (getInstanceKey g i)) (mutexKey listIndexKey)
            (.time now)) (getGroupKey g)) (getGroupIndexKey g)) none (some [g]))
        (mutexKey listIndexKey))
        = getList (alterListIndex (Store.del (Store.del
          (Store.set (Store.del s (getInstanceKey g i)) (mutexKey listIndexKey)
            (.time now)) (getGroupKey g)) (getGroupIndexKey g)) none (some [g])) := by
      simp only [getList]
      rw [Store.get_del_ne _ _ _ (mutexKey_ne_listIndexKey _).symm]
    rw [hgl, getList_alter]
    split
    · intro hg
      rw [List.mem_filter] at hg
      simp at hg
    · simp
  · simp only [getGroupEndpoint, hIK]

/-- A store holding one group "g" with exactly one instance "i", built from
the empty store by one upsert. -/
def sC6 : Store := postInstance [] "g" "i" "p" 0

/-- Claim C6 witness: the single-instance store after remove("g", "i"). -/
theorem remove_last_instance_removes_group_witness :
    "g" ∉ getList (removeInstance sC6 "g" "i" 1)
    ∧ Store.get (removeInstance sC6 "g" "i" 1) (getGroupKey "g") = none
    ∧ Store.get (removeInstance sC6 "g" "i" 1) (getGroupIndexKey "g") = none
    ∧ getGroupEndpoint (removeInstance sC6 "g" "i" 1) "g" = none :=
  remove_last_instance_removes_group sC6 "g" "i" 1 (by decide)
